import Mathlib

/-!
Shallow embedding of the cabinet control core of `netboot/hostutils.py`
(the `Host` controller, its poll thread, and the transfer-worker function
`_send_file_to_host`), together with theorems settling the specification
claims about it.

External collaborators (the `arcadeutils` patch engine, the `naomi`
settings patcher, the `netdimm` protocol library, and the file system)
are abstracted as function parameters, exactly where the source calls out
to them; everything the source itself computes is transcribed.
-/

set_option maxHeartbeats 1000000

namespace Netboot

/-- Target platforms of the netdimm library (`NetDimmTargetEnum` consumed by
`hostutils.py`). -/
inductive NetDimmTargetEnum
  | TARGET_NAOMI
  | TARGET_CHIHIRO
  | TARGET_TRIFORCE
  deriving DecidableEq, Repr

/-- The two settings-blob kinds (`SettingsEnum` in `hostutils.py`). -/
inductive SettingsEnum
  | SETTINGS_EEPROM
  | SETTINGS_SRAM
  deriving DecidableEq, Repr

/-- Statuses of a host transfer (`HostStatusEnum` in `hostutils.py`). -/
inductive HostStatusEnum
  | STATUS_INACTIVE
  | STATUS_TRANSFERRING
  | STATUS_COMPLETED
  | STATUS_FAILED
  deriving DecidableEq, Repr

/-- A message placed on the progress channel by the transfer worker: the
tagged tuples `("progress", (sent, total))`, `("success", None)` and
`("failure", reason)` of the source. -/
inductive QueueMessage
  | progress (sent total : Int)
  | success
  | failure (reason : String)
  deriving DecidableEq, Repr

/-- True exactly on the two terminal channel messages. -/
def QueueMessage.isTerminal : QueueMessage → Bool
  | .progress _ _ => false
  | .success => true
  | .failure _ => true

/-- The pipeline of `_handle_patches` in `hostutils.py`: apply every patch
file in list order via the patch engine, then walk the settings map in
insertion order, splicing EEPROM/SRAM blobs through the NAOMI settings
patcher when (and only when) the target is NAOMI.  `binaryDiffPatch`
abstracts `BinaryDiff.patch`, `readPatchLines` abstracts reading and
blank-stripping a patch file, and `naomiPutEeprom` / `naomiPutSram`
abstract `NaomiSettingsPatcher(data, trojan).put_eeprom/put_sram` followed
by `.data`. -/
def apply_patch_files {A : Type} (binaryDiffPatch : A → List String → A)
    (readPatchLines : String → List String) (data : A) (patches : List String) : A :=
  patches.foldl (fun d p => binaryDiffPatch d (readPatchLines p)) data

/-- The body of the settings loop of `_handle_patches` for one `(kind, blob)`
entry: splice the blob through the NAOMI settings patcher when the target is
NAOMI, and leave the data untouched for every other target. -/
def settings_step {A : Type} (naomiPutEeprom : A → List Nat → A)
    (naomiPutSram : A → List Nat → A) (target : NetDimmTargetEnum)
    (d : A) (ts : SettingsEnum × List Nat) : A :=
  match ts.1 with
  | SettingsEnum.SETTINGS_EEPROM =>
      if target = NetDimmTargetEnum.TARGET_NAOMI then naomiPutEeprom d ts.2 else d
  | SettingsEnum.SETTINGS_SRAM =>
      if target = NetDimmTargetEnum.TARGET_NAOMI then naomiPutSram d ts.2 else d

/-- The settings loop of `_handle_patches`: one fold step per `(kind, blob)`
entry of the settings dictionary, in iteration order. -/
def apply_settings_files {A : Type} (naomiPutEeprom : A → List Nat → A)
    (naomiPutSram : A → List Nat → A) (target : NetDimmTargetEnum)
    (data : A) (settings : List (SettingsEnum × List Nat)) : A :=
  settings.foldl (settings_step naomiPutEeprom naomiPutSram target) data

/-- `_handle_patches(data, target, patches, settings)` from `hostutils.py`:
patches first, then the settings loop. -/
def _handle_patches {A : Type} (binaryDiffPatch : A → List String → A)
    (readPatchLines : String → List String) (naomiPutEeprom : A → List Nat → A)
    (naomiPutSram : A → List Nat → A) (data : A) (target : NetDimmTargetEnum)
    (patches : List String) (settings : List (SettingsEnum × List Nat)) : A :=
  apply_settings_files naomiPutEeprom naomiPutSram target
    (apply_patch_files binaryDiffPatch readPatchLines data patches) settings

/-- The byte window handed to `netdimm.send` inside `_send_file_to_host`:
the file contents (`FileBytes(fp)` for `filename`, abstracted by
`fileData`) pushed through `_handle_patches`. -/
def worker_send_data {A : Type} (binaryDiffPatch : A → List String → A)
    (readPatchLines : String → List String) (naomiPutEeprom : A → List Nat → A)
    (naomiPutSram : A → List Nat → A) (fileData : String → A) (filename : String)
    (target : NetDimmTargetEnum) (patches : List String)
    (settings : List (SettingsEnum × List Nat)) : A :=
  _handle_patches binaryDiffPatch readPatchLines naomiPutEeprom naomiPutSram
    (fileData filename) target patches settings

/-- The message sequence `_send_file_to_host` places on the progress channel.
`preError` models an exception raised before `netdimm.send` runs (the
`NetDimm` constructor, the `open` of the image, or the patch pipeline);
`netSend` models the behaviour of `netdimm.send` on the patched data: the
list of `(sent, total)` progress callbacks it makes, and `none` for a
normal return or `some reason` for a raised exception.  Every exception is
caught by the single `try/except` and becomes one `failure` message. -/
def _send_file_to_host {A : Type} (binaryDiffPatch : A → List String → A)
    (readPatchLines : String → List String) (naomiPutEeprom : A → List Nat → A)
    (naomiPutSram : A → List Nat → A) (fileData : String → A)
    (netSend : A → List (Int × Int) × Option String) (preError : Option String)
    (filename : String) (target : NetDimmTargetEnum) (patches : List String)
    (settings : List (SettingsEnum × List Nat)) : List QueueMessage :=
  match preError with
  | some e => [QueueMessage.failure e]
  | none =>
    let r := netSend (worker_send_data binaryDiffPatch readPatchLines naomiPutEeprom
      naomiPutSram fileData filename target patches settings)
    (r.1.map fun p => QueueMessage.progress p.1 p.2) ++
      (match r.2 with
       | none => [QueueMessage.success]
       | some e => [QueueMessage.failure e])

/-- The controller state of one `Host` object: the fields guarded by the
controller mutex.  `procActive` is `self.__proc is not None`; `queue` is the
content of the progress channel, oldest message first. -/
structure HostState where
  procActive : Bool
  queue : List QueueMessage
  lastprogress : Int × Int
  laststatus : Option HostStatusEnum
  alive : Bool
  poll_reset : Bool
  deriving DecidableEq, Repr

/-- The controller state right after `Host.__init__`. -/
def Host.init : HostState :=
  { procActive := false, queue := [], lastprogress := (-1, -1),
    laststatus := none, alive := false, poll_reset := false }

/-- The drain loop of `Host.__update_progress`: pop channel messages one at
a time; a progress message updates `lastprogress` and continues; a terminal
message records the sticky status, resets `lastprogress` to the sentinel,
joins and clears the worker handle, and returns, leaving any later
messages queued. -/
def update_progress_go (s : HostState) : List QueueMessage → HostState
  | [] => { s with queue := [] }
  | QueueMessage.progress a b :: rest =>
      update_progress_go { s with lastprogress := (a, b), queue := rest } rest
  | QueueMessage.success :: rest =>
      { s with queue := rest, laststatus := some HostStatusEnum.STATUS_COMPLETED,
               lastprogress := (-1, -1), procActive := false }
  | QueueMessage.failure _ :: rest =>
      { s with queue := rest, laststatus := some HostStatusEnum.STATUS_FAILED,
               lastprogress := (-1, -1), procActive := false }

/-- `Host.__update_progress`: a no-op when no worker handle exists, else the
drain loop over the currently queued messages. -/
def update_progress (s : HostState) : HostState :=
  if s.procActive = true then update_progress_go s s.queue else s

/-- `Host.tick()`: take the lock and run `__update_progress`. -/
def Host.tick (s : HostState) : HostState :=
  update_progress s

/-- `Host.status`: the sticky status when recorded; otherwise INACTIVE
without a worker handle and TRANSFERRING with one. -/
def Host.status (s : HostState) : HostStatusEnum :=
  match s.laststatus with
  | some st => st
  | none =>
      if s.procActive = true then HostStatusEnum.STATUS_TRANSFERRING
      else HostStatusEnum.STATUS_INACTIVE

/-- `Host.progress`: raises `HostException` while the sentinel is in place,
else returns the last recorded pair. -/
def Host.progress (s : HostState) : Except String (Int × Int) :=
  if s.lastprogress = (-1, -1) then Except.error "There is no active transfer"
  else Except.ok s.lastprogress

/-- The `Host.alive` setter.  A truthy value does nothing at all; `False`
requests a poll-counter reset, caches `alive = False`, and terminates,
joins and clears any active worker.  No other field is touched. -/
def Host.set_alive (s : HostState) (val : Bool) : HostState :=
  if val then s
  else { s with poll_reset := true, alive := false, procActive := false }

/-- The state written by `Host.send` before it spawns the worker process:
sentinel progress, cleared sticky status, a live worker handle.
`workerMsgs` is the message sequence the spawned worker will place on the
channel, appended after anything already queued. -/
def send_spawn (s : HostState) (workerMsgs : List QueueMessage) : HostState :=
  { s with lastprogress := (-1, -1), laststatus := none, procActive := true,
           queue := s.queue ++ workerMsgs }

/-- The synchronous drain loop at the end of `Host.send`: while the
progress sentinel is still in place and the worker handle exists, run
`__update_progress`.  The fuel argument bounds the iterations; one unit
more than the queue length always suffices for the loop to settle. -/
def send_loop : Nat → HostState → HostState
  | 0, s => s
  | n + 1, s =>
      if s.lastprogress = (-1, -1) ∧ s.procActive = true then
        send_loop n (update_progress s)
      else s

/-- `Host.send(filename, patches, settings)`: raise `HostException` when a
worker handle already exists (first component `some message`, state
untouched); otherwise reset progress and status, spawn the worker, and
drain until a first progress datum is recorded or the worker has exited. -/
def Host.send (s : HostState) (workerMsgs : List QueueMessage) :
    Option String × HostState :=
  if s.procActive = true then (some "Host has active transfer already", s)
  else (none, send_loop ((send_spawn s workerMsgs).queue.length + 1)
    (send_spawn s workerMsgs))

/-- `Host.crc(filename, patches, settings)`: read the image, push it through
`_handle_patches` with the host's target, and apply `NetDimm.crc`
(abstracted as `crcFun`) to the result. -/
def Host.crc {A : Type} (crcFun : A → Nat) (binaryDiffPatch : A → List String → A)
    (readPatchLines : String → List String) (naomiPutEeprom : A → List Nat → A)
    (naomiPutSram : A → List Nat → A) (fileData : String → A) (filename : String)
    (target : NetDimmTargetEnum) (patches : List String)
    (settings : List (SettingsEnum × List Nat)) : Nat :=
  crcFun (_handle_patches binaryDiffPatch readPatchLines naomiPutEeprom
    naomiPutSram (fileData filename) target patches settings)

/-- `Host.reboot()`: mid-transfer it raises `HostException` before touching
the DIMM; otherwise it calls `netdimm.reboot()` and converts a
`NetDimmException` into a `False` return.  `dimm_ok` models whether the
protocol call succeeds.  Result components: the raised exception if any,
whether the DIMM protocol was invoked, and the returned value. -/
def Host.reboot (s : HostState) (dimm_ok : Bool) :
    Option String × Bool × Option Bool :=
  if s.procActive = true then (some "Cannot reboot host mid-transfer.", false, none)
  else (none, true, some dimm_ok)

/-- `Host.wipe()`: mid-transfer it returns silently without touching the
DIMM; otherwise it calls `wipe_current_game` and swallows any
`NetDimmException`.  Result components: the raised exception if any,
whether the DIMM protocol was invoked, and whether the wipe completed. -/
def Host.wipe (s : HostState) (dimm_ok : Bool) : Option String × Bool × Bool :=
  if s.procActive = true then (none, false, false)
  else (none, true, dimm_ok)

/-- `Host.info()`: mid-transfer it returns `None` without touching the DIMM;
otherwise it calls `netdimm.info()` and converts a `NetDimmException` into a
`None` return.  `dimm_result` models the protocol call: `some i` for a
returned `NetDimmInfo`, `none` for a raised exception. -/
def Host.info {I : Type} (s : HostState) (dimm_result : Option I) :
    Option String × Bool × Option I :=
  if s.procActive = true then (none, false, none)
  else (none, true, dimm_result)

/-- The externally triggered controller operations that mutate `Host`
state: `tick`, `send`, the `alive` setter, a worker placing one message on
the channel, and the poll thread publishing a debounced liveness value. -/
inductive HostOp
  | tick
  | send (workerMsgs : List QueueMessage)
  | set_alive (val : Bool)
  | push (m : QueueMessage)
  | publish_alive (b : Bool)

/-- One controller operation applied to a state. -/
def host_apply (s : HostState) : HostOp → HostState
  | HostOp.tick => Host.tick s
  | HostOp.send ws => (Host.send s ws).2
  | HostOp.set_alive v => Host.set_alive s v
  | HostOp.push m => { s with queue := s.queue ++ [m] }
  | HostOp.publish_alive b => { s with alive := b }

/-- All controller states reachable from construction by a sequence of
operations. -/
def host_run (ops : List HostOp) : HostState :=
  ops.foldl host_apply Host.init

/-- The debounce threshold of the poll thread (`Host.DEBOUNCE_SECONDS`). -/
def Host.DEBOUNCE_SECONDS : Nat := 3

/-- The state of one poll-loop iteration of `Host.__poll_thread`: the local
consecutive-success and consecutive-failure counters, the published
`Host.__alive` flag, and the pending `Host.__poll_reset` request. -/
structure ProberState where
  success_count : Nat
  failure_count : Nat
  alive : Bool
  poll_reset : Bool
  deriving DecidableEq, Repr

/-- One non-transferring iteration of the poll loop of `Host.__poll_thread`
on the outcome of a single ping probe: honour a pending reset request, then
bump the matching consecutive counter, zero the contrary one, and publish
the flag once the counter reaches `DEBOUNCE_SECONDS`. -/
def poll_step (s : ProberState) (probe_ok : Bool) : ProberState :=
  let s0 :=
    if s.poll_reset then
      { s with poll_reset := false, success_count := 0, failure_count := 0 }
    else s
  if probe_ok then
    let sc := s0.success_count + 1
    { s0 with success_count := sc, failure_count := 0,
              alive := if Host.DEBOUNCE_SECONDS ≤ sc then true else s0.alive }
  else
    let fc := s0.failure_count + 1
    { s0 with success_count := 0, failure_count := fc,
              alive := if Host.DEBOUNCE_SECONDS ≤ fc then false else s0.alive }

/-- A whole prober run: the poll loop folded over a sequence of probe
outcomes. -/
def poll_run (s : ProberState) (probes : List Bool) : ProberState :=
  probes.foldl poll_step s

/-- The polarity swap of a prober state: success and failure counters
exchanged and the published flag negated.  `poll_step` commutes with it,
which lets the failure-side debounce facts follow from the success-side
ones. -/
def ProberState.mirror (s : ProberState) : ProberState :=
  { success_count := s.failure_count, failure_count := s.success_count,
    alive := !s.alive, poll_reset := s.poll_reset }

/-- The sticky-status invariant: `laststatus` is either unset or one of the
two terminal statuses (`__laststatus` is only ever written to `None`,
COMPLETED or FAILED). -/
def terminal_status (o : Option HostStatusEnum) : Prop :=
  o = none ∨ o = some HostStatusEnum.STATUS_COMPLETED ∨
    o = some HostStatusEnum.STATUS_FAILED

/-- A controller state mid-transfer, with recorded progress, no sticky
status and an empty channel, used as a concrete test state. -/
def busy_example : HostState :=
  { procActive := true, queue := [], lastprogress := (10, 100),
    laststatus := none, alive := true, poll_reset := false }

/-- C10: when no transfer worker handle exists, `tick()` is a no-op on the
controller state: every field, the sticky status and last progress
included, is unchanged, and no channel message is consumed. -/
theorem c10_tick_inactive_noop (s : HostState) (h : s.procActive = false) :
    Host.tick s = s := by
  simp [Host.tick, update_progress, h]

theorem c10_tick_inactive_noop_witness : Host.tick Host.init = Host.init :=
  c10_tick_inactive_noop Host.init rfl

/-- C3 counterexample: with an active worker and recorded progress
`(10, 100)`, setting `alive := false` leaves `lastprogress` at `(10, 100)`
rather than resetting it to `(-1, -1)`, and leaves `laststatus` at `none`
rather than recording FAILED, refuting the claimed resets. -/
theorem c3_alive_setter_counterexample :
    (Host.set_alive busy_example false).lastprogress ≠ (-1, -1) ∧
    (Host.set_alive busy_example false).laststatus ≠
      some HostStatusEnum.STATUS_FAILED := by
  constructor <;> simp [Host.set_alive, busy_example]

/-- C3 amended: with an active transfer worker, setting `alive := false`
hard-terminates the worker and clears the handle, requests a prober counter
reset, and caches `alive = false`; `lastprogress` and `laststatus` are left
unchanged (no sentinel reset and no FAILED status are recorded). -/
theorem c3_alive_setter_amended (s : HostState) (_h : s.procActive = true) :
    (Host.set_alive s false).procActive = false ∧
    (Host.set_alive s false).poll_reset = true ∧
    (Host.set_alive s false).alive = false ∧
    (Host.set_alive s false).lastprogress = s.lastprogress ∧
    (Host.set_alive s false).laststatus = s.laststatus := by
  refine ⟨?_, ?_, ?_, ?_, ?_⟩ <;> simp [Host.set_alive]

theorem c3_alive_setter_amended_witness :
    (Host.set_alive busy_example false).procActive = false ∧
    (Host.set_alive busy_example false).poll_reset = true ∧
    (Host.set_alive busy_example false).alive = false ∧
    (Host.set_alive busy_example false).lastprogress = busy_example.lastprogress ∧
    (Host.set_alive busy_example false).laststatus = busy_example.laststatus :=
  c3_alive_setter_amended busy_example rfl

/-- C4 counterexample: with a transfer in flight, `reboot()` raises
`HostException` rather than failing soft, so an error does propagate to the
caller. -/
theorem c4_reboot_counterexample :
    (Host.reboot busy_example true).1 = some "Cannot reboot host mid-transfer." := by
  simp [Host.reboot, busy_example]

/-- C4 amended: with a transfer in flight, `reboot()` raises `HostException`
without invoking the DIMM protocol, while `wipe()` refuses silently and
`info()` returns the empty value, neither raising; with no transfer in
flight, a `NetDimmException` on `reboot`, `wipe`, or `info` is converted to
a soft result (`false`, no-op, empty) rather than propagated. -/
theorem c4_failsoft_amended {I : Type} (s : HostState) (ok : Bool) (r : Option I) :
    (s.procActive = true →
        Host.reboot s ok = (some "Cannot reboot host mid-transfer.", false, none) ∧
        Host.wipe s ok = (none, false, false) ∧
        Host.info s r = (none, false, none)) ∧
    (s.procActive = false →
        Host.reboot s false = (none, true, some false) ∧
        Host.wipe s false = (none, true, false) ∧
        Host.info s (none : Option I) = (none, true, none)) := by
  constructor <;> intro h <;>
    exact ⟨by simp [Host.reboot, h], by simp [Host.wipe, h], by simp [Host.info, h]⟩

theorem c4_failsoft_amended_witness :
    Host.reboot busy_example true = (some "Cannot reboot host mid-transfer.", false, none) ∧
    Host.reboot Host.init false = (none, true, some false) :=
  ⟨((c4_failsoft_amended (I := Nat) busy_example true (some 0)).1 rfl).1,
   ((c4_failsoft_amended (I := Nat) Host.init true (some 0)).2 rfl).1⟩

/-- C5: `Host.crc(filename, patches, settings)` applies the CRC function to
exactly the byte window that the transfer worker spawned by
`send(filename, patches, settings)` hands to `netdimm.send`: both paths
push the file contents through the identical `_handle_patches` pipeline
with the host's target. -/
theorem c5_crc_refines_send {A : Type} (crcFun : A → Nat)
    (binaryDiffPatch : A → List String → A) (readPatchLines : String → List String)
    (naomiPutEeprom : A → List Nat → A) (naomiPutSram : A → List Nat → A)
    (fileData : String → A) (filename : String) (target : NetDimmTargetEnum)
    (patches : List String) (settings : List (SettingsEnum × List Nat)) :
    Host.crc crcFun binaryDiffPatch readPatchLines naomiPutEeprom naomiPutSram
        fileData filename target patches settings =
      crcFun (worker_send_data binaryDiffPatch readPatchLines naomiPutEeprom
        naomiPutSram fileData filename target patches settings) := rfl

/-- C8 counterexample: drain a transfer ending in success (here during the
synchronous part of `send` itself).  The terminal drain records COMPLETED
and immediately restores the progress sentinel, so a `progress` read
between the terminal drain and the next `send` already raises
`HostException`; the last `(sent, total)` is not readable there. -/
theorem c8_progress_counterexample :
    Host.status (Host.send Host.init
        [QueueMessage.progress 10 100, QueueMessage.success]).2 =
      HostStatusEnum.STATUS_COMPLETED ∧
    Host.progress (Host.send Host.init
        [QueueMessage.progress 10 100, QueueMessage.success]).2 =
      Except.error "There is no active transfer" := by
  constructor <;> rfl

/-- C8 amended: `progress` raises `HostException` exactly when
`lastprogress` holds the sentinel `(-1, -1)` and otherwise returns the last
recorded pair; draining a terminal message itself restores the sentinel, so
after COMPLETED is drained a `progress` read raises immediately, already
before the next `send`. -/
theorem c8_progress_amended (s : HostState) :
    (s.lastprogress = (-1, -1) →
        Host.progress s = Except.error "There is no active transfer") ∧
    (s.lastprogress ≠ (-1, -1) → Host.progress s = Except.ok s.lastprogress) ∧
    (∀ rest reason,
        (update_progress_go s (QueueMessage.success :: rest)).lastprogress = (-1, -1) ∧
        (update_progress_go s (QueueMessage.failure reason :: rest)).lastprogress =
          (-1, -1)) := by
  refine ⟨fun h => ?_, fun h => ?_, fun rest reason => ⟨rfl, rfl⟩⟩ <;>
    simp [Host.progress, h]

theorem c8_progress_amended_witness :
    Host.progress Host.init = Except.error "There is no active transfer" ∧
    Host.progress busy_example = Except.ok busy_example.lastprogress :=
  ⟨(c8_progress_amended Host.init).1 rfl,
   (c8_progress_amended busy_example).2.1 (by decide)⟩

lemma apply_settings_files_non_naomi {A : Type} (naomiPutEeprom : A → List Nat → A)
    (naomiPutSram : A → List Nat → A) (target : NetDimmTargetEnum)
    (h : target ≠ NetDimmTargetEnum.TARGET_NAOMI)
    (settings : List (SettingsEnum × List Nat)) :
    ∀ d : A, apply_settings_files naomiPutEeprom naomiPutSram target d settings = d := by
  induction settings with
  | nil => intro d; rfl
  | cons ts rest ih =>
      intro d
      obtain ⟨k, v⟩ := ts
      have hstep : settings_step naomiPutEeprom naomiPutSram target d (k, v) = d := by
        cases k <;> simp [settings_step, h]
      calc apply_settings_files naomiPutEeprom naomiPutSram target d ((k, v) :: rest)
          = apply_settings_files naomiPutEeprom naomiPutSram target
              (settings_step naomiPutEeprom naomiPutSram target d (k, v)) rest := rfl
        _ = d := by rw [hstep]; exact ih _

lemma apply_settings_files_naomi {A : Type} (naomiPutEeprom : A → List Nat → A)
    (naomiPutSram : A → List Nat → A) (settings : List (SettingsEnum × List Nat)) :
    ∀ d : A, apply_settings_files naomiPutEeprom naomiPutSram
        NetDimmTargetEnum.TARGET_NAOMI d settings =
      settings.foldl
        (fun acc ts =>
          match ts.1 with
          | SettingsEnum.SETTINGS_EEPROM => naomiPutEeprom acc ts.2
          | SettingsEnum.SETTINGS_SRAM => naomiPutSram acc ts.2)
        d := by
  induction settings with
  | nil => intro d; rfl
  | cons ts rest ih =>
      intro d
      obtain ⟨k, v⟩ := ts
      cases k <;> simpa [apply_settings_files, settings_step] using ih _

/-- C9: for every target other than NAOMI, `_handle_patches` returns the
same result with any settings map as with the empty one — EEPROM and SRAM
blobs are silently ignored; for the NAOMI target the blobs are applied
through the NAOMI settings patcher, in map order, after all patches. -/
theorem c9_settings_only_naomi {A : Type} (binaryDiffPatch : A → List String → A)
    (readPatchLines : String → List String) (naomiPutEeprom : A → List Nat → A)
    (naomiPutSram : A → List Nat → A) (data : A) (target : NetDimmTargetEnum)
    (patches : List String) (settings : List (SettingsEnum × List Nat)) :
    (target ≠ NetDimmTargetEnum.TARGET_NAOMI →
        _handle_patches binaryDiffPatch readPatchLines naomiPutEeprom naomiPutSram
            data target patches settings =
          _handle_patches binaryDiffPatch readPatchLines naomiPutEeprom naomiPutSram
            data target patches []) ∧
    (_handle_patches binaryDiffPatch readPatchLines naomiPutEeprom naomiPutSram
        data NetDimmTargetEnum.TARGET_NAOMI patches settings =
      settings.foldl
        (fun acc ts =>
          match ts.1 with
          | SettingsEnum.SETTINGS_EEPROM => naomiPutEeprom acc ts.2
          | SettingsEnum.SETTINGS_SRAM => naomiPutSram acc ts.2)
        (apply_patch_files binaryDiffPatch readPatchLines data patches)) := by
  constructor
  · intro h
    unfold _handle_patches
    rw [apply_settings_files_non_naomi _ _ _ h]
    rfl
  · unfold _handle_patches
    rw [apply_settings_files_naomi]

theorem c9_settings_only_naomi_witness :
    _handle_patches (fun d _ => d + 1) (fun _ => []) (fun d _ => d + 10)
        (fun d _ => d + 100) 0 NetDimmTargetEnum.TARGET_CHIHIRO ["p"]
        [(SettingsEnum.SETTINGS_EEPROM, [0]), (SettingsEnum.SETTINGS_SRAM, [1])] =
      _handle_patches (fun d _ => d + 1) (fun _ => []) (fun d _ => d + 10)
        (fun d _ => d + 100) 0 NetDimmTargetEnum.TARGET_CHIHIRO ["p"] [] :=
  (c9_settings_only_naomi (fun d _ => d + 1) (fun _ => []) (fun d _ => d + 10)
    (fun d _ => d + 100) 0 NetDimmTargetEnum.TARGET_CHIHIRO ["p"]
    [(SettingsEnum.SETTINGS_EEPROM, [0]), (SettingsEnum.SETTINGS_SRAM, [1])]).1
    (by decide)

lemma progress_map_no_terminal (evs : List (Int × Int)) :
    ((evs.map fun p => QueueMessage.progress p.1 p.2).all
      fun m => !(QueueMessage.isTerminal m)) = true := by
  induction evs with
  | nil => rfl
  | cons e rest ih => simpa [QueueMessage.isTerminal] using ih

lemma progress_map_filter_terminal (evs : List (Int × Int)) :
    (evs.map fun p => QueueMessage.progress p.1 p.2).filter
      QueueMessage.isTerminal = [] := by
  induction evs with
  | nil => rfl
  | cons e rest ih => simpa [QueueMessage.isTerminal] using ih

/-- C7: for every file, patch list, settings map and behaviour of the
underlying `netdimm.send` — any sequence of progress callbacks, returning
normally or raising, and any exception raised before the send — the worker
places exactly one terminal message on the channel, every earlier message
is a progress message, the terminal message comes last, and nothing follows
it; there are no in-worker retries. -/
theorem c7_worker_one_terminal {A : Type} (binaryDiffPatch : A → List String → A)
    (readPatchLines : String → List String) (naomiPutEeprom : A → List Nat → A)
    (naomiPutSram : A → List Nat → A) (fileData : String → A)
    (netSend : A → List (Int × Int) × Option String) (preError : Option String)
    (filename : String) (target : NetDimmTargetEnum) (patches : List String)
    (settings : List (SettingsEnum × List Nat)) :
    ((_send_file_to_host binaryDiffPatch readPatchLines naomiPutEeprom naomiPutSram
        fileData netSend preError filename target patches settings).filter
        QueueMessage.isTerminal).length = 1 ∧
    ((_send_file_to_host binaryDiffPatch readPatchLines naomiPutEeprom naomiPutSram
        fileData netSend preError filename target patches settings).dropLast.all
        fun m => !(QueueMessage.isTerminal m)) = true ∧
    QueueMessage.isTerminal
      ((_send_file_to_host binaryDiffPatch readPatchLines naomiPutEeprom naomiPutSram
        fileData netSend preError filename target patches settings).getLastD
        QueueMessage.success) = true := by
  cases preError with
  | some e => exact ⟨rfl, rfl, rfl⟩
  | none =>
      rcases hns : netSend (worker_send_data binaryDiffPatch readPatchLines
          naomiPutEeprom naomiPutSram fileData filename target patches settings)
        with ⟨evs, outc⟩
      cases outc with
      | none =>
          have hms : _send_file_to_host binaryDiffPatch readPatchLines naomiPutEeprom
              naomiPutSram fileData netSend none filename target patches settings =
              (evs.map fun p => QueueMessage.progress p.1 p.2) ++
                [QueueMessage.success] := by
            simp [_send_file_to_host, hns]
          refine ⟨?_, ?_, ?_⟩
          · rw [hms, List.filter_append, progress_map_filter_terminal]; rfl
          · rw [hms, List.dropLast_concat]; exact progress_map_no_terminal evs
          · rw [hms, List.getLastD_concat]; rfl
      | some e =>
          have hms : _send_file_to_host binaryDiffPatch readPatchLines naomiPutEeprom
              naomiPutSram fileData netSend none filename target patches settings =
              (evs.map fun p => QueueMessage.progress p.1 p.2) ++
                [QueueMessage.failure e] := by
            simp [_send_file_to_host, hns]
          refine ⟨?_, ?_, ?_⟩
          · rw [hms, List.filter_append, progress_map_filter_terminal]; rfl
          · rw [hms, List.dropLast_concat]; exact progress_map_no_terminal evs
          · rw [hms, List.getLastD_concat]; rfl

lemma update_progress_go_terminal (q : List QueueMessage) :
    ∀ s : HostState, q.any QueueMessage.isTerminal = true →
      (update_progress_go s q).procActive = false := by
  induction q with
  | nil => intro s h; simp at h
  | cons m rest ih =>
      intro s h
      cases m with
      | progress a b =>
          apply ih
          simpa [QueueMessage.isTerminal] using h
      | success => rfl
      | failure r => rfl

lemma send_loop_of_inactive (n : Nat) (s : HostState) (h : s.procActive = false) :
    send_loop n s = s := by
  cases n with
  | zero => rfl
  | succ k => simp [send_loop, h]

/-- C1: while a transfer worker handle exists, `send` raises `HostException`
("Host has active transfer already") and leaves the controller state
untouched; with no worker, `send` raises nothing, clears the sticky status,
resets `lastprogress` to the sentinel, spawns exactly one worker, and runs
the synchronous drain loop, which does not hand back a state until a first
progress datum has been recorded or the worker has exited. -/
theorem c1_send_contract (s : HostState) (ws : List QueueMessage) :
    (s.procActive = true →
        Host.send s ws = (some "Host has active transfer already", s)) ∧
    (s.procActive = false →
        (Host.send s ws).1 = none ∧
        (send_spawn s ws).laststatus = none ∧
        (send_spawn s ws).lastprogress = (-1, -1) ∧
        (send_spawn s ws).procActive = true ∧
        (Host.send s ws).2 =
          send_loop ((send_spawn s ws).queue.length + 1) (send_spawn s ws) ∧
        ((s.queue ++ ws).any QueueMessage.isTerminal = true →
            (Host.send s ws).2.lastprogress ≠ (-1, -1) ∨
            (Host.send s ws).2.procActive = false)) := by
  constructor
  · intro h; simp [Host.send, h]
  · intro h
    have hsend : Host.send s ws =
        (none, send_loop ((send_spawn s ws).queue.length + 1) (send_spawn s ws)) := by
      simp [Host.send, h]
    have h2 : (Host.send s ws).2 =
        send_loop ((send_spawn s ws).queue.length + 1) (send_spawn s ws) := by
      rw [hsend]
    refine ⟨by rw [hsend], rfl, rfl, rfl, h2, ?_⟩
    intro hterm
    right
    have hpa : (update_progress (send_spawn s ws)).procActive = false := by
      have hup : update_progress (send_spawn s ws) =
          update_progress_go (send_spawn s ws) (send_spawn s ws).queue := by
        unfold update_progress
        rw [if_pos (show (send_spawn s ws).procActive = true from rfl)]
      rw [hup]
      exact update_progress_go_terminal _ _ hterm
    have hloop : send_loop ((send_spawn s ws).queue.length + 1) (send_spawn s ws) =
        update_progress (send_spawn s ws) := by
      have hguard : (send_spawn s ws).lastprogress = (-1, -1) ∧
          (send_spawn s ws).procActive = true := ⟨rfl, rfl⟩
      simp only [send_loop]
      rw [if_pos hguard]
      exact send_loop_of_inactive _ _ hpa
    rw [h2, hloop]
    exact hpa

theorem c1_send_contract_witness :
    Host.send busy_example [] = (some "Host has active transfer already", busy_example) ∧
    ((Host.send Host.init [QueueMessage.progress 10 100,
        QueueMessage.success]).2.lastprogress ≠ (-1, -1) ∨
      (Host.send Host.init [QueueMessage.progress 10 100,
        QueueMessage.success]).2.procActive = false) :=
  ⟨(c1_send_contract busy_example []).1 rfl,
   ((c1_send_contract Host.init
      [QueueMessage.progress 10 100, QueueMessage.success]).2 rfl).2.2.2.2.2
     (by decide)⟩

lemma update_progress_go_status (q : List QueueMessage) :
    ∀ s : HostState, terminal_status s.laststatus →
      terminal_status (update_progress_go s q).laststatus := by
  induction q with
  | nil => intro s h; exact h
  | cons m rest ih =>
      intro s h
      cases m with
      | progress a b => exact ih _ h
      | success => exact Or.inr (Or.inl rfl)
      | failure r => exact Or.inr (Or.inr rfl)

lemma update_progress_status (s : HostState) (h : terminal_status s.laststatus) :
    terminal_status (update_progress s).laststatus := by
  unfold update_progress
  split
  · exact update_progress_go_status _ _ h
  · exact h

lemma send_loop_status (n : Nat) :
    ∀ s : HostState, terminal_status s.laststatus →
      terminal_status (send_loop n s).laststatus := by
  induction n with
  | zero => intro s h; exact h
  | succ k ih =>
      intro s h
      unfold send_loop
      split
      · exact ih _ (update_progress_status _ h)
      · exact h

lemma host_apply_status (s : HostState) (op : HostOp)
    (h : terminal_status s.laststatus) :
    terminal_status (host_apply s op).laststatus := by
  cases op with
  | tick => exact update_progress_status s h
  | send ws =>
      show terminal_status (Host.send s ws).2.laststatus
      unfold Host.send
      split
      · exact h
      · exact send_loop_status _ (send_spawn s ws) (Or.inl rfl)
  | set_alive v =>
      show terminal_status (Host.set_alive s v).laststatus
      unfold Host.set_alive
      split
      · exact h
      · exact h
  | push m => exact h
  | publish_alive b => exact h

lemma host_run_status (ops : List HostOp) :
    terminal_status (host_run ops).laststatus := by
  have key : ∀ (l : List HostOp) (s : HostState), terminal_status s.laststatus →
      terminal_status (l.foldl host_apply s).laststatus := by
    intro l
    induction l with
    | nil => intro s h; exact h
    | cons op rest ih => intro s h; exact ih _ (host_apply_status _ _ h)
  exact key ops Host.init (Or.inl rfl)

/-- C2: in every reachable controller state, `status` returns the recorded
sticky status when there is one — and a recorded sticky status is always
terminal, COMPLETED or FAILED — otherwise TRANSFERRING when a transfer
worker handle exists, otherwise INACTIVE. -/
theorem c2_status_cases (ops : List HostOp) :
    (∀ st, (host_run ops).laststatus = some st →
        (st = HostStatusEnum.STATUS_COMPLETED ∨
          st = HostStatusEnum.STATUS_FAILED) ∧
        Host.status (host_run ops) = st) ∧
    ((host_run ops).laststatus = none → (host_run ops).procActive = true →
        Host.status (host_run ops) = HostStatusEnum.STATUS_TRANSFERRING) ∧
    ((host_run ops).laststatus = none → (host_run ops).procActive = false →
        Host.status (host_run ops) = HostStatusEnum.STATUS_INACTIVE) := by
  refine ⟨?_, ?_, ?_⟩
  · intro st hst
    constructor
    · rcases host_run_status ops with h | h | h
      · rw [hst] at h; exact Option.noConfusion h
      · rw [hst] at h; exact Or.inl (Option.some.inj h)
      · rw [hst] at h; exact Or.inr (Option.some.inj h)
    · simp [Host.status, hst]
  · intro h1 h2; simp [Host.status, h1, h2]
  · intro h1 h2; simp [Host.status, h1, h2]

theorem c2_status_cases_witness :
    Host.status (host_run [HostOp.send [QueueMessage.progress 5 10]]) =
      HostStatusEnum.STATUS_TRANSFERRING :=
  (c2_status_cases [HostOp.send [QueueMessage.progress 5 10]]).2.1 rfl rfl

lemma poll_step_reset (s : ProberState) (b : Bool) :
    (poll_step s b).poll_reset = false := by
  rcases s with ⟨sc, fc, al, pr⟩
  cases pr <;> cases b <;> rfl

lemma poll_run_reset (probes : List Bool) :
    ∀ s : ProberState, s.poll_reset = false →
      (poll_run s probes).poll_reset = false := by
  induction probes with
  | nil => intro s h; exact h
  | cons b rest ih =>
      intro s _
      exact ih _ (poll_step_reset s b)

lemma poll_step_true_success (s : ProberState) (h : s.poll_reset = false) :
    (poll_step s true).success_count = s.success_count + 1 := by
  rcases s with ⟨sc, fc, al, pr⟩
  cases pr with
  | false => rfl
  | true => exact Bool.noConfusion h

lemma poll_step_false_success (s : ProberState) :
    (poll_step s false).success_count = 0 := by
  rcases s with ⟨sc, fc, al, pr⟩
  cases pr <;> rfl

lemma poll_step_true_failure (s : ProberState) :
    (poll_step s true).failure_count = 0 := by
  rcases s with ⟨sc, fc, al, pr⟩
  cases pr <;> rfl

lemma poll_step_false_alive (s : ProberState)
    (h : (poll_step s false).alive = true) : s.alive = true := by
  rcases s with ⟨sc, fc, al, pr⟩
  cases pr with
  | true =>
      have h' : (if Host.DEBOUNCE_SECONDS ≤ 0 + 1 then false else al) = true := h
      simpa [Host.DEBOUNCE_SECONDS] using h'
  | false =>
      have h' : (if Host.DEBOUNCE_SECONDS ≤ fc + 1 then false else al) = true := h
      by_cases hc : Host.DEBOUNCE_SECONDS ≤ fc + 1
      · rw [if_pos hc] at h'
        exact Bool.noConfusion h'
      · rwa [if_neg hc] at h'

lemma poll_step_true_alive (s : ProberState) (hr : s.poll_reset = false)
    (h : (poll_step s true).alive = true) :
    s.alive = true ∨ Host.DEBOUNCE_SECONDS ≤ s.success_count + 1 := by
  rcases s with ⟨sc, fc, al, pr⟩
  obtain rfl : pr = false := hr
  by_cases hc : Host.DEBOUNCE_SECONDS ≤ sc + 1
  · exact Or.inr hc
  · left
    have h' : (if Host.DEBOUNCE_SECONDS ≤ sc + 1 then true else al) = true := h
    rwa [if_neg hc] at h'

lemma poll_run_success_suffix (s : ProberState) (hr : s.poll_reset = false)
    (hs : s.success_count = 0) (probes : List Bool) :
    ∃ l, probes = l ++ List.replicate (poll_run s probes).success_count true := by
  induction probes using List.reverseRecOn with
  | nil =>
      refine ⟨[], ?_⟩
      simp [poll_run, hs]
  | append_singleton tr b ih =>
      have hr' : (poll_run s tr).poll_reset = false := poll_run_reset tr s hr
      have hstep : poll_run s (tr ++ [b]) = poll_step (poll_run s tr) b := by
        simp [poll_run, List.foldl_append]
      cases b with
      | true =>
          obtain ⟨l, hl⟩ := ih
          refine ⟨l, ?_⟩
          rw [hstep, poll_step_true_success _ hr', List.replicate_succ',
            ← List.append_assoc, ← hl]
      | false =>
          refine ⟨tr ++ [false], ?_⟩
          rw [hstep, poll_step_false_success]
          simp

lemma poll_run_alive_true (s : ProberState) (hr : s.poll_reset = false)
    (hs : s.success_count = 0) (probes : List Bool)
    (h : (poll_run s probes).alive = true) :
    s.alive = true ∨
      ∃ l r, probes = l ++ List.replicate Host.DEBOUNCE_SECONDS true ++ r := by
  induction probes using List.reverseRecOn with
  | nil => exact Or.inl h
  | append_singleton tr b ih =>
      have hr' : (poll_run s tr).poll_reset = false := poll_run_reset tr s hr
      have hstep : poll_run s (tr ++ [b]) = poll_step (poll_run s tr) b := by
        simp [poll_run, List.foldl_append]
      rw [hstep] at h
      cases b with
      | false =>
          rcases ih (poll_step_false_alive _ h) with ha | ⟨l, r, hlr⟩
          · exact Or.inl ha
          · exact Or.inr ⟨l, r ++ [false], by rw [hlr]; simp⟩
      | true =>
          rcases poll_step_true_alive _ hr' h with h1 | h1
          · rcases ih h1 with ha | ⟨l, r, hlr⟩
            · exact Or.inl ha
            · exact Or.inr ⟨l, r ++ [true], by rw [hlr]; simp⟩
          · right
            obtain ⟨l, hl⟩ := poll_run_success_suffix s hr hs tr
            set n := (poll_run s tr).success_count with hn
            refine ⟨l ++ List.replicate (n + 1 - Host.DEBOUNCE_SECONDS) true, [], ?_⟩
            have hrep : List.replicate n true ++ [true] =
                List.replicate (n + 1 - Host.DEBOUNCE_SECONDS) true ++
                  List.replicate Host.DEBOUNCE_SECONDS true := by
              rw [← List.replicate_succ', ← List.replicate_add]
              congr 1
              omega
            rw [hl, List.append_assoc, hrep]
            simp [List.append_assoc]

lemma poll_step_mirror (s : ProberState) (b : Bool) :
    poll_step s.mirror (!b) = (poll_step s b).mirror := by
  rcases s with ⟨sc, fc, al, pr⟩
  cases pr <;> cases b <;> simp [poll_step, ProberState.mirror, apply_ite]

lemma poll_run_mirror (probes : List Bool) :
    ∀ s : ProberState,
      poll_run s.mirror (probes.map fun x => !x) = (poll_run s probes).mirror := by
  induction probes with
  | nil => intro s; rfl
  | cons b rest ih =>
      intro s
      show poll_run (poll_step s.mirror (!b)) (rest.map fun x => !x) = _
      rw [poll_step_mirror]
      exact ih (poll_step s b)

lemma poll_run_alive_false (s : ProberState) (hr : s.poll_reset = false)
    (hf : s.failure_count = 0) (probes : List Bool)
    (h : (poll_run s probes).alive = false) :
    s.alive = false ∨
      ∃ l r, probes = l ++ List.replicate Host.DEBOUNCE_SECONDS false ++ r := by
  have hm : (poll_run s.mirror (probes.map fun x => !x)).alive = true := by
    rw [poll_run_mirror]
    simp [ProberState.mirror, h]
  rcases poll_run_alive_true s.mirror (by simp [ProberState.mirror, hr])
      (by simp [ProberState.mirror, hf]) _ hm with h1 | ⟨l, r, hlr⟩
  · left
    simpa [ProberState.mirror] using h1
  · right
    refine ⟨l.map fun x => !x, r.map fun x => !x, ?_⟩
    have hmap := congrArg (List.map fun x => !x) hlr
    have hcomp : ((fun x => !x) ∘ fun x : Bool => !x) = id := by
      funext x
      simp
    rw [List.map_map, hcomp, List.map_id] at hmap
    rw [hmap]
    simp [List.map_append, List.map_replicate]

/-- C6: over any prober run starting from a reset state, the published alive
flag can have flipped to true only if the probe trace contains
`DEBOUNCE_SECONDS` (= 3) consecutive successes, and to false only if it
contains 3 consecutive failures; a single contrary probe zeroes the
opposite consecutive counter, and a single-probe flap (one probe followed
by one contrary probe) never flips the flag. -/
theorem c6_debounce (s : ProberState) (probes : List Bool)
    (hr : s.poll_reset = false) (hs : s.success_count = 0)
    (hf : s.failure_count = 0) :
    Host.DEBOUNCE_SECONDS = 3 ∧
    ((poll_run s probes).alive = true → s.alive = true ∨
        ∃ l r, probes = l ++ List.replicate Host.DEBOUNCE_SECONDS true ++ r) ∧
    ((poll_run s probes).alive = false → s.alive = false ∨
        ∃ l r, probes = l ++ List.replicate Host.DEBOUNCE_SECONDS false ++ r) ∧
    (∀ s' : ProberState, (poll_step s' true).failure_count = 0 ∧
        (poll_step s' false).success_count = 0) ∧
    (∀ b : Bool, (poll_run s [b, !b]).alive = s.alive) := by
  refine ⟨rfl, fun h => poll_run_alive_true s hr hs probes h,
    fun h => poll_run_alive_false s hr hf probes h,
    fun s' => ⟨poll_step_true_failure s', poll_step_false_success s'⟩, ?_⟩
  intro b
  rcases s with ⟨sc, fc, al, pr⟩
  obtain rfl : sc = 0 := hs
  obtain rfl : fc = 0 := hf
  obtain rfl : pr = false := hr
  cases b <;> rfl

theorem c6_debounce_witness :
    (⟨0, 0, false, false⟩ : ProberState).alive = true ∨
      ∃ l r, [true, true, true] =
        l ++ List.replicate Host.DEBOUNCE_SECONDS true ++ r :=
  (c6_debounce ⟨0, 0, false, false⟩ [true, true, true] rfl rfl rfl).2.1 rfl

end Netboot
